import Mathlib

/-!
Verification development for the `anchor-escrow-2024` program
(`programs/anchor-escrow/src/{lib.rs, state.rs, contexts/{make.rs, take.rs, refund.rs}}`).

The escrow core is shallowly embedded as pure functions over an explicit
ledger state (`Chain`).  Addresses (`Pubkey`) are modelled as an inductive
type whose constructors mirror the two address-derivation schemes the
program uses — `find_program_address` PDAs and associated token accounts —
so that determinism and collision-freedom of the derivation primitive
(spec §4.1: same inputs always yield the same address, distinct inputs
distinct addresses, and a derived address has no private key) hold by
constructor injectivity and disjointness.  Each instruction handler is the
sequence of Anchor account-constraint checks (in struct-field order, as
the generated `try_accounts` performs them) followed by the instruction
body's token-program CPIs; the CPIs are recorded as a `TokenOp` trace and
interpreted against the ledger by `runTokenOp`, mirroring SPL-token
`transfer` / `transfer_checked` / `close_account` semantics.  Each
operation returns `Except`: an error means the whole transaction aborts
with no state change, which is the runtime's atomic-unit rollback.
-/

namespace AnchorEscrow

/-- Addresses.  `raw` is an ordinary keypair address (the only kind an
external party can sign for).  `escrowPda maker seed` is the program
address derived from seeds `["escrow", maker, seed.to_le_bytes()]`
(make.rs line 22, take.rs line 47, refund.rs line 21).  `ata authority
mint` is the associated token account of `authority` for `mint`.
`vaultPda escrow` is the program address derived from seeds
`["vault", escrow]` (refund.rs line 27). -/
inductive Pubkey where
  | raw : Nat → Pubkey
  | escrowPda : Pubkey → Nat → Pubkey
  | ata : Pubkey → Pubkey → Pubkey
  | vaultPda : Pubkey → Pubkey
deriving DecidableEq

/-- The disambiguator ("bump") returned by the derivation primitive for a
PDA.  The byte search over the hash function is cryptographic and outside
this embedding; what the program relies on — the same `(maker, seed)`
always yields the same `(address, bump)` pair — is modelled by this being
a function of its arguments. -/
def escrowBumpOf (_maker : Pubkey) (_seed : Nat) : Nat := 255

/-- An SPL token account: mint, owner (authorizing principal), amount. -/
structure TokenAccount where
  mint : Pubkey
  owner : Pubkey
  amount : Nat
deriving DecidableEq

/-- The persisted escrow record, exactly the fields of `Escrow` in
state.rs (lines 3-10): seed, mint_a, mint_b, receive, bump.
state.rs defines no `maker` and no `vault_bump` field, although
take.rs line 44 (`has_one = maker`) and refund.rs line 28
(`bump = escrow.vault_bump`) reference them. -/
structure Escrow where
  seed : Nat
  mint_a : Pubkey
  mint_b : Pubkey
  receive : Nat
  bump : Nat
deriving DecidableEq

/-- Ledger state: mint accounts (address to decimals), token accounts,
and escrow records, each keyed by address. -/
structure Chain where
  mints : List (Pubkey × Nat)
  tokenAccounts : List (Pubkey × TokenAccount)
  escrows : List (Pubkey × Escrow)
deriving DecidableEq

/-- Error taxonomy (spec §7) plus the ledger-level errors SPL token raises. -/
inductive EscrowError where
  | authorizationError
  | constraintViolation
  | insufficientFunds
  | duplicateSeed
  | accountNotFound
  | accountInUse
  | decimalsMismatch
  | overflow
deriving DecidableEq

/-- Association-list lookup (first binding wins). -/
def lookupA {α β : Type} [DecidableEq α] : List (α × β) → α → Option β
  | [], _ => none
  | (k, v) :: rest, a => if k = a then some v else lookupA rest a

/-- Replace the first binding of `k`, or append one. -/
def setA {α β : Type} [DecidableEq α] : List (α × β) → α → β → List (α × β)
  | [], k, v => [(k, v)]
  | (k', v') :: rest, k, v =>
    if k' = k then (k, v) :: rest else (k', v') :: setA rest k v

/-- Remove every binding of `k` (a closed account ceases to exist). -/
def removeA {α β : Type} [DecidableEq α] : List (α × β) → α → List (α × β)
  | [], _ => []
  | (k', v') :: rest, k =>
    if k' = k then removeA rest k else (k', v') :: removeA rest k

theorem lookupA_setA_self {α β : Type} [DecidableEq α]
    (l : List (α × β)) (k : α) (v : β) : lookupA (setA l k v) k = some v := by
  induction l with
  | nil => simp [setA, lookupA]
  | cons p rest ih =>
    obtain ⟨k', v'⟩ := p
    by_cases h : k' = k
    · simp [setA, h, lookupA]
    · simp [setA, h, lookupA, ih]

theorem lookupA_setA_ne {α β : Type} [DecidableEq α]
    (l : List (α × β)) {k k' : α} (v : β) (h : k' ≠ k) :
    lookupA (setA l k v) k' = lookupA l k' := by
  induction l with
  | nil => simp [setA, lookupA, Ne.symm h]
  | cons p rest ih =>
    obtain ⟨k0, v0⟩ := p
    by_cases h0 : k0 = k
    · subst h0
      simp [setA, lookupA, Ne.symm h]
    · by_cases h1 : k0 = k'
      · simp [setA, h0, lookupA, h1, h]
      · simp [setA, h0, lookupA, h1, ih]

theorem lookupA_removeA_self {α β : Type} [DecidableEq α]
    (l : List (α × β)) (k : α) : lookupA (removeA l k) k = none := by
  induction l with
  | nil => simp [removeA, lookupA]
  | cons p rest ih =>
    obtain ⟨k', v'⟩ := p
    by_cases h : k' = k
    · simp [removeA, h, ih]
    · simp [removeA, h, lookupA, ih]

theorem lookupA_removeA_ne {α β : Type} [DecidableEq α]
    (l : List (α × β)) {k k' : α} (h : k' ≠ k) :
    lookupA (removeA l k) k' = lookupA l k' := by
  induction l with
  | nil => simp [removeA]
  | cons p rest ih =>
    obtain ⟨k0, v0⟩ := p
    by_cases h0 : k0 = k
    · subst h0
      simp [removeA, lookupA, Ne.symm h, ih]
    · by_cases h1 : k0 = k'
      · simp [removeA, h0, lookupA, h1, h, ih]
      · simp [removeA, h0, lookupA, h1, ih]

/-- No address equals a PDA derived from it (the derivation strictly
extends its seed inputs); rules out aliasing between a maker's own
accounts and accounts authorized by the maker's escrow PDA. -/
theorem escrowPda_ne_self (m : Pubkey) (s : Nat) : Pubkey.escrowPda m s ≠ m := by
  intro h
  have hs := congrArg sizeOf h
  simp only [Pubkey.escrowPda.sizeOf_spec] at hs
  omega

/-- One token-program invocation, as issued by the escrow program.
`transfer` is `spl_token::transfer` (make.rs line 63, refund.rs line 61),
`transferChecked` is `transfer_checked` (take.rs lines 74 and 98),
`closeAccount` is `close_account` (take.rs line 112, refund.rs line 86). -/
inductive TokenOp where
  | transfer (source dest authority : Pubkey) (amount : Nat)
  | transferChecked (source mint dest authority : Pubkey) (amount decimals : Nat)
  | closeAccount (account destination authority : Pubkey)
deriving DecidableEq

/-- The account a `TokenOp` debits or destroys. -/
def TokenOp.debited : TokenOp → Pubkey
  | .transfer source _ _ _ => source
  | .transferChecked source _ _ _ _ _ => source
  | .closeAccount account _ _ => account

/-- The principal a `TokenOp` names as its authorizing signer. -/
def TokenOp.authority : TokenOp → Pubkey
  | .transfer _ _ a _ => a
  | .transferChecked _ _ _ a _ _ => a
  | .closeAccount _ _ a => a

/-- SPL-token transfer core: the source must exist, be owned by the
authority, and hold at least `amount`; the destination must exist and
share the source's mint; the credited balance must stay within u64. -/
def doTransfer (c : Chain) (source dest authority : Pubkey) (amount : Nat) :
    Except EscrowError Chain :=
  match lookupA c.tokenAccounts source with
  | none => .error .accountNotFound
  | some sa =>
    if sa.owner = authority then
      if amount ≤ sa.amount then
        match lookupA (setA c.tokenAccounts source { sa with amount := sa.amount - amount }) dest with
        | none => .error .accountNotFound
        | some da =>
          if da.mint = sa.mint then
            if da.amount + amount < 2 ^ 64 then
              .ok { c with tokenAccounts := (setA
                      (setA c.tokenAccounts source { sa with amount := sa.amount - amount })
                      dest { da with amount := da.amount + amount }) }
            else .error .overflow
          else .error .constraintViolation
      else .error .insufficientFunds
    else .error .authorizationError

/-- Interpret one token-program call against the ledger.
`transferChecked` additionally validates the caller-supplied decimals
against the mint and the source account's mint against the supplied mint;
`closeAccount` requires authority and a zero balance and deletes the
account. -/
def runTokenOp (c : Chain) : TokenOp → Except EscrowError Chain
  | .transfer source dest authority amount => doTransfer c source dest authority amount
  | .transferChecked source mint dest authority amount decimals =>
    match lookupA c.mints mint with
    | none => .error .accountNotFound
    | some d =>
      if d = decimals then
        match lookupA c.tokenAccounts source with
        | none => .error .accountNotFound
        | some sa =>
          if sa.mint = mint then doTransfer c source dest authority amount
          else .error .constraintViolation
      else .error .decimalsMismatch
  | .closeAccount account _destination authority =>
    match lookupA c.tokenAccounts account with
    | none => .error .accountNotFound
    | some acc =>
      if acc.owner = authority then
        if acc.amount = 0 then
          .ok { c with tokenAccounts := removeA c.tokenAccounts account }
        else .error .constraintViolation
      else .error .authorizationError

/-- Run a sequence of token-program calls; the first error aborts. -/
def runOps (c : Chain) : List TokenOp → Except EscrowError Chain
  | [] => .ok c
  | op :: rest =>
    match runTokenOp c op with
    | .error e => .error e
    | .ok c1 => runOps c1 rest

/-- Fail with `e` unless `p` holds (an Anchor account constraint). -/
def ensure (p : Prop) [Decidable p] (e : EscrowError) : Except EscrowError Unit :=
  if p then .ok () else .error e

/-- Extract a required account, failing if it does not exist. -/
def getOpt {β : Type} (o : Option β) (e : EscrowError) : Except EscrowError β :=
  match o with
  | some b => .ok b
  | none => .error e

/-- Anchor `init_if_needed` on an associated token account: create it
empty if absent, otherwise check it matches the constraints. -/
def initIfNeeded (c : Chain) (addr mint owner : Pubkey) : Except EscrowError Chain :=
  match lookupA c.tokenAccounts addr with
  | none => .ok { c with tokenAccounts := setA c.tokenAccounts addr ⟨mint, owner, 0⟩ }
  | some acc =>
    if acc.mint = mint ∧ acc.owner = owner then .ok c else .error .constraintViolation

/-- The accounts a caller supplies to `make` (make.rs lines 7-37) along
with the instruction arguments (lib.rs line 14).  The caller picks the
addresses; the handler validates them. -/
structure MakeArgs where
  maker : Pubkey
  mintA : Pubkey
  mintB : Pubkey
  makerAtaA : Pubkey
  escrowAddr : Pubkey
  vaultAddr : Pubkey
  seed : Nat
  deposit : Nat
  receive : Nat
deriving DecidableEq

/-- `make` (lib.rs lines 14-17 with the `Make` accounts of make.rs).
`a.maker` is the transaction's signer.  Constraint checks in struct-field
order: the two mints deserialize; `maker_ata_a` is the maker's associated
account for `mint_a`; `escrow` is `init` at the PDA
`["escrow", maker, seed]` (duplicate seed fails); `vault` is `init` as
the associated token account of the escrow PDA for `mint_a`.  Body:
`deposit` transfers `deposit` of `mint_a` from the maker's account to the
vault authorized by the maker (make.rs lines 51-64), then `save_escrow`
persists `{seed, mint_a, mint_b, receive, bump}` (make.rs lines 40-49). -/
def make (c : Chain) (a : MakeArgs) : Except EscrowError (Chain × List TokenOp) := do
  let _ ← getOpt (lookupA c.mints a.mintA) .accountNotFound
  let _ ← getOpt (lookupA c.mints a.mintB) .accountNotFound
  let _ ← ensure (a.makerAtaA = Pubkey.ata a.maker a.mintA) .constraintViolation
  let ma ← getOpt (lookupA c.tokenAccounts a.makerAtaA) .accountNotFound
  let _ ← ensure (ma.mint = a.mintA ∧ ma.owner = a.maker) .constraintViolation
  let _ ← ensure (a.escrowAddr = Pubkey.escrowPda a.maker a.seed) .constraintViolation
  let _ ← ensure (lookupA c.escrows a.escrowAddr = none) .duplicateSeed
  let _ ← ensure (a.vaultAddr = Pubkey.ata a.escrowAddr a.mintA) .constraintViolation
  let _ ← ensure (lookupA c.tokenAccounts a.vaultAddr = none) .accountInUse
  let c := { c with tokenAccounts := setA c.tokenAccounts a.vaultAddr ⟨a.mintA, a.escrowAddr, 0⟩ }
  let ops := [TokenOp.transfer a.makerAtaA a.vaultAddr a.maker a.deposit]
  let c ← runOps c ops
  let rec0 : Escrow := ⟨a.seed, a.mintA, a.mintB, a.receive, escrowBumpOf a.maker a.seed⟩
  pure ({ c with escrows := setA c.escrows a.escrowAddr rec0 }, ops)

/-- The accounts a caller supplies to `take` (take.rs lines 11-61).
`taker` is the transaction's signer; `maker` is a plain `SystemAccount`
and does not sign. -/
structure TakeArgs where
  taker : Pubkey
  maker : Pubkey
  mintA : Pubkey
  mintB : Pubkey
  takerAtaA : Pubkey
  takerAtaB : Pubkey
  makerAtaB : Pubkey
  escrowAddr : Pubkey
  vaultAddr : Pubkey
deriving DecidableEq

/-- `take` (lib.rs lines 24-28 with the `Take` accounts of take.rs;
lib.rs names the last two calls `withdraw` and `close_vault` while
take.rs implements them as the single `withdraw_and_close_vault`).
Constraint checks in struct-field order: mints; `taker_ata_a`
(`init_if_needed`); `taker_ata_b` (must exist); `maker_ata_b`
(`init_if_needed`); `escrow` with `seeds`/`bump` reconstruction and
`has_one` checks on `mint_a`/`mint_b` (take.rs line 44 also writes
`has_one = maker`, but state.rs's `Escrow` has no `maker` field — the
maker is instead pinned by the `seeds` check, which this embedding
models); `vault` is the escrow PDA's associated account for `mint_a`.
Body: `deposit` pays `escrow.receive` of `mint_b` from taker to maker
(take.rs lines 64-75); `withdraw_and_close_vault` pays the vault's
entire recorded balance to the taker and closes the vault, both
authorized by the escrow PDA via its reconstructed seeds (take.rs lines
77-113); finally the `close = maker` constraint closes the record. -/
def take (c : Chain) (a : TakeArgs) : Except EscrowError (Chain × List TokenOp) := do
  let decA ← getOpt (lookupA c.mints a.mintA) .accountNotFound
  let decB ← getOpt (lookupA c.mints a.mintB) .accountNotFound
  let _ ← ensure (a.takerAtaA = Pubkey.ata a.taker a.mintA) .constraintViolation
  let c ← initIfNeeded c a.takerAtaA a.mintA a.taker
  let _ ← ensure (a.takerAtaB = Pubkey.ata a.taker a.mintB) .constraintViolation
  let tb ← getOpt (lookupA c.tokenAccounts a.takerAtaB) .accountNotFound
  let _ ← ensure (tb.mint = a.mintB ∧ tb.owner = a.taker) .constraintViolation
  let _ ← ensure (a.makerAtaB = Pubkey.ata a.maker a.mintB) .constraintViolation
  let c ← initIfNeeded c a.makerAtaB a.mintB a.maker
  let e ← getOpt (lookupA c.escrows a.escrowAddr) .accountNotFound
  let _ ← ensure (a.escrowAddr = Pubkey.escrowPda a.maker e.seed ∧
                  e.bump = escrowBumpOf a.maker e.seed) .authorizationError
  let _ ← ensure (e.mint_a = a.mintA ∧ e.mint_b = a.mintB) .constraintViolation
  let _ ← ensure (a.vaultAddr = Pubkey.ata a.escrowAddr a.mintA) .constraintViolation
  let v ← getOpt (lookupA c.tokenAccounts a.vaultAddr) .accountNotFound
  let _ ← ensure (v.mint = a.mintA ∧ v.owner = a.escrowAddr) .constraintViolation
  let ops := [TokenOp.transferChecked a.takerAtaB a.mintB a.makerAtaB a.taker e.receive decB,
              TokenOp.transferChecked a.vaultAddr a.mintA a.takerAtaA a.escrowAddr v.amount decA,
              TokenOp.closeAccount a.vaultAddr a.taker a.escrowAddr]
  let c ← runOps c ops
  pure ({ c with escrows := removeA c.escrows a.escrowAddr }, ops)

/-- The accounts a caller supplies to `refund` (refund.rs lines 7-36).
`maker` is the transaction's signer. -/
structure RefundArgs where
  maker : Pubkey
  mintA : Pubkey
  makerAtaA : Pubkey
  escrowAddr : Pubkey
  vaultAddr : Pubkey
deriving DecidableEq

/-- `refund` (lib.rs lines 19-22 with the `Refund` accounts of
refund.rs).  Constraint checks in struct-field order: `mint_a`;
`maker_ata_a`; `escrow` with `seeds = ["escrow", maker, escrow.seed]` /
`bump = escrow.bump` reconstruction — the check that makes a non-maker
signer fail — and `has_one = mint_a`; `vault` at the PDA
`["vault", escrow]` (refund.rs line 27; its `bump = escrow.vault_bump`
reads a field state.rs's `Escrow` does not define, modelled here as the
canonical derived address) owned by the escrow with mint `mint_a`.
Body: `refund` transfers the vault's entire recorded balance back to the
maker authorized by the escrow PDA's reconstructed seeds (refund.rs
lines 39-62), then `close_vault` closes the vault (lines 64-87), and the
`close = maker` constraint closes the record. -/
def refund (c : Chain) (a : RefundArgs) : Except EscrowError (Chain × List TokenOp) := do
  let _ ← getOpt (lookupA c.mints a.mintA) .accountNotFound
  let _ ← ensure (a.makerAtaA = Pubkey.ata a.maker a.mintA) .constraintViolation
  let ma ← getOpt (lookupA c.tokenAccounts a.makerAtaA) .accountNotFound
  let _ ← ensure (ma.mint = a.mintA ∧ ma.owner = a.maker) .constraintViolation
  let e ← getOpt (lookupA c.escrows a.escrowAddr) .accountNotFound
  let _ ← ensure (a.escrowAddr = Pubkey.escrowPda a.maker e.seed ∧
                  e.bump = escrowBumpOf a.maker e.seed) .authorizationError
  let _ ← ensure (e.mint_a = a.mintA) .constraintViolation
  let _ ← ensure (a.vaultAddr = Pubkey.vaultPda a.escrowAddr) .constraintViolation
  let v ← getOpt (lookupA c.tokenAccounts a.vaultAddr) .accountNotFound
  let _ ← ensure (v.mint = a.mintA ∧ v.owner = a.escrowAddr) .constraintViolation
  let ops := [TokenOp.transfer a.vaultAddr a.makerAtaA a.escrowAddr v.amount,
              TokenOp.closeAccount a.vaultAddr a.maker a.escrowAddr]
  let c ← runOps c ops
  pure ({ c with escrows := removeA c.escrows a.escrowAddr }, ops)

/-- Whether an operation result committed (`Except.ok`). -/
def succeeded {β : Type} (r : Except EscrowError β) : Bool :=
  match r with
  | .ok _ => true
  | .error _ => false

theorem succeeded_iff {β : Type} {r : Except EscrowError β} :
    succeeded r = true ↔ ∃ x, r = .ok x := by
  cases r <;> simp [succeeded]

theorem bind_ok_iff {α β : Type} {m : Except EscrowError α}
    {f : α → Except EscrowError β} {b : β} :
    (m >>= f) = .ok b ↔ ∃ a, m = .ok a ∧ f a = .ok b := by
  cases m <;> simp [Bind.bind, Except.bind]

theorem pure_ok_iff {α : Type} {x b : α} :
    (pure x : Except EscrowError α) = .ok b ↔ x = b := by
  simp [pure, Except.pure]

theorem getOpt_ok_iff {β : Type} {o : Option β} {e : EscrowError} {b : β} :
    getOpt o e = .ok b ↔ o = some b := by
  cases o <;> simp [getOpt]

theorem ensure_ok_iff {p : Prop} [Decidable p] {e : EscrowError} {u : Unit} :
    ensure p e = .ok u ↔ p := by
  by_cases hp : p <;> simp [ensure, hp]

theorem runOps_nil_ok {c c' : Chain} : runOps c [] = .ok c' ↔ c = c' := by
  simp [runOps]

theorem runOps_cons_ok {c c' : Chain} {op : TokenOp} {rest : List TokenOp} :
    runOps c (op :: rest) = .ok c' ↔
      ∃ c1, runTokenOp c op = .ok c1 ∧ runOps c1 rest = .ok c' := by
  cases hop : runTokenOp c op with
  | error e => simp [runOps, hop]
  | ok c1 => simp [runOps, hop]

theorem doTransfer_ok_inv {c : Chain} {s d auth : Pubkey} {amt : Nat} {c' : Chain}
    (h : doTransfer c s d auth amt = .ok c') :
    ∃ sa da,
      lookupA c.tokenAccounts s = some sa ∧ sa.owner = auth ∧ amt ≤ sa.amount ∧
      lookupA (setA c.tokenAccounts s { sa with amount := sa.amount - amt }) d = some da ∧
      da.mint = sa.mint ∧ da.amount + amt < 2 ^ 64 ∧
      c' = { c with tokenAccounts := (setA
              (setA c.tokenAccounts s { sa with amount := sa.amount - amt })
              d { da with amount := da.amount + amt }) } := by
  unfold doTransfer at h
  split at h
  · exact Except.noConfusion h
  next sa hsa =>
    split at h
    next hown =>
      split at h
      next hamt =>
        split at h
        · exact Except.noConfusion h
        next da hda =>
          split at h
          next hmint =>
            split at h
            next hov =>
              exact ⟨sa, da, hsa, hown, hamt, hda, hmint, hov,
                ((Except.ok.injEq _ _).mp h).symm⟩
            · exact Except.noConfusion h
          · exact Except.noConfusion h
      · exact Except.noConfusion h
    · exact Except.noConfusion h

theorem transferChecked_ok_inv {c : Chain} {s m d auth : Pubkey} {amt dec : Nat} {c' : Chain}
    (h : runTokenOp c (.transferChecked s m d auth amt dec) = .ok c') :
    lookupA c.mints m = some dec ∧
    (∃ sa, lookupA c.tokenAccounts s = some sa ∧ sa.mint = m) ∧
    doTransfer c s d auth amt = .ok c' := by
  simp only [runTokenOp] at h
  split at h
  · exact Except.noConfusion h
  next dm hdm =>
    split at h
    next hdec =>
      split at h
      · exact Except.noConfusion h
      next sa hsa =>
        split at h
        next hmint => exact ⟨hdec ▸ hdm, ⟨sa, hsa, hmint⟩, h⟩
        · exact Except.noConfusion h
    · exact Except.noConfusion h

theorem close_ok_inv {c : Chain} {acct dst auth : Pubkey} {c' : Chain}
    (h : runTokenOp c (.closeAccount acct dst auth) = .ok c') :
    ∃ acc, lookupA c.tokenAccounts acct = some acc ∧ acc.owner = auth ∧ acc.amount = 0 ∧
      c' = { c with tokenAccounts := removeA c.tokenAccounts acct } := by
  simp only [runTokenOp] at h
  split at h
  · exact Except.noConfusion h
  next acc hacc =>
    split at h
    next hown =>
      split at h
      next hz => exact ⟨acc, hacc, hown, hz, ((Except.ok.injEq _ _).mp h).symm⟩
      · exact Except.noConfusion h
    · exact Except.noConfusion h

/-- `doTransfer` touches only token accounts. -/
theorem doTransfer_frame {c : Chain} {s d auth : Pubkey} {amt : Nat} {c' : Chain}
    (h : doTransfer c s d auth amt = .ok c') :
    c'.escrows = c.escrows ∧ c'.mints = c.mints := by
  obtain ⟨sa, da, _, _, _, _, _, _, hc'⟩ := doTransfer_ok_inv h
  subst hc'
  exact ⟨rfl, rfl⟩

/-- `runTokenOp` touches only token accounts. -/
theorem runTokenOp_frame {c : Chain} {op : TokenOp} {c' : Chain}
    (h : runTokenOp c op = .ok c') :
    c'.escrows = c.escrows ∧ c'.mints = c.mints := by
  cases op with
  | transfer s d auth amt => exact doTransfer_frame h
  | transferChecked s m d auth amt dec =>
    obtain ⟨_, _, hdo⟩ := transferChecked_ok_inv h
    exact doTransfer_frame hdo
  | closeAccount acct dst auth =>
    obtain ⟨acc, _, _, _, hc'⟩ := close_ok_inv h
    subst hc'
    exact ⟨rfl, rfl⟩

/-- `runOps` touches only token accounts. -/
theorem runOps_frame {c : Chain} {ops : List TokenOp} {c' : Chain}
    (h : runOps c ops = .ok c') :
    c'.escrows = c.escrows ∧ c'.mints = c.mints := by
  induction ops generalizing c with
  | nil => rw [runOps_nil_ok] at h; subst h; exact ⟨rfl, rfl⟩
  | cons op rest ih =>
    rw [runOps_cons_ok] at h
    obtain ⟨c1, h1, h2⟩ := h
    obtain ⟨he1, hm1⟩ := runTokenOp_frame h1
    obtain ⟨he2, hm2⟩ := ih h2
    exact ⟨he2.trans he1, hm2.trans hm1⟩

/-- `init_if_needed` touches only token accounts. -/
theorem initIfNeeded_frame {c : Chain} {addr mint owner : Pubkey} {c1 : Chain}
    (h : initIfNeeded c addr mint owner = .ok c1) :
    c1.escrows = c.escrows ∧ c1.mints = c.mints := by
  unfold initIfNeeded at h
  split at h
  · exact ((Except.ok.injEq _ _).mp h) ▸ ⟨rfl, rfl⟩
  next acc hacc =>
    split at h
    · exact ((Except.ok.injEq _ _).mp h) ▸ ⟨rfl, rfl⟩
    · exact absurd h (by simp)

/-- `init_if_needed` leaves every already-existing token account alone. -/
theorem initIfNeeded_preserve {c : Chain} {addr mint owner : Pubkey} {c1 : Chain}
    (h : initIfNeeded c addr mint owner = .ok c1) {x : Pubkey} {y : TokenAccount}
    (hx : lookupA c.tokenAccounts x = some y) :
    lookupA c1.tokenAccounts x = some y := by
  unfold initIfNeeded at h
  split at h
  next hnone =>
    have hc1 := ((Except.ok.injEq _ _).mp h).symm
    subst hc1
    have hne : x ≠ addr := by
      intro hxa
      rw [hxa] at hx
      rw [hx] at hnone
      exact Option.noConfusion hnone
    simpa [lookupA_setA_ne _ _ hne] using hx
  next acc hacc =>
    split at h
    · have hc1 := ((Except.ok.injEq _ _).mp h).symm
      subst hc1
      exact hx
    · exact Except.noConfusion h

/-- Everything a successful `refund` implies: the account constraints it
checked, the exact token-program trace it issued, and the final state. -/
theorem refund_ok_inv {c : Chain} {a : RefundArgs} {c' : Chain} {t : List TokenOp}
    (h : refund c a = .ok (c', t)) :
    ∃ ma e v crun,
      a.makerAtaA = Pubkey.ata a.maker a.mintA ∧
      lookupA c.tokenAccounts a.makerAtaA = some ma ∧
      ma.mint = a.mintA ∧ ma.owner = a.maker ∧
      lookupA c.escrows a.escrowAddr = some e ∧
      a.escrowAddr = Pubkey.escrowPda a.maker e.seed ∧
      e.bump = escrowBumpOf a.maker e.seed ∧
      e.mint_a = a.mintA ∧
      a.vaultAddr = Pubkey.vaultPda a.escrowAddr ∧
      lookupA c.tokenAccounts a.vaultAddr = some v ∧
      v.mint = a.mintA ∧ v.owner = a.escrowAddr ∧
      t = [TokenOp.transfer a.vaultAddr a.makerAtaA a.escrowAddr v.amount,
           TokenOp.closeAccount a.vaultAddr a.maker a.escrowAddr] ∧
      runOps c t = .ok crun ∧
      c' = { crun with escrows := removeA crun.escrows a.escrowAddr } := by
  unfold refund at h
  simp only [bind_ok_iff, getOpt_ok_iff, ensure_ok_iff, pure_ok_iff, Prod.mk.injEq,
    exists_and_left, exists_const] at h
  obtain ⟨dec, hdec, hataAddr, ma, hma, ⟨hmam, hmao⟩, e, he, ⟨hseeds, hbump⟩, hminta,
    hvaddr, v, hv, ⟨hvm, hvo⟩, crun, hrun, hc', ht⟩ := h
  exact ⟨ma, e, v, crun, hataAddr, hma, hmam, hmao, he, hseeds, hbump, hminta, hvaddr,
    hv, hvm, hvo, ht.symm, ht ▸ hrun, hc'.symm⟩

/-- Everything a successful `make` implies: the constraints it checked,
the deposit transfer it issued, and the final state. -/
theorem make_ok_inv {c : Chain} {a : MakeArgs} {c' : Chain} {t : List TokenOp}
    (h : make c a = .ok (c', t)) :
    ∃ ma crun,
      a.makerAtaA = Pubkey.ata a.maker a.mintA ∧
      lookupA c.tokenAccounts a.makerAtaA = some ma ∧
      ma.mint = a.mintA ∧ ma.owner = a.maker ∧
      a.escrowAddr = Pubkey.escrowPda a.maker a.seed ∧
      lookupA c.escrows a.escrowAddr = none ∧
      a.vaultAddr = Pubkey.ata a.escrowAddr a.mintA ∧
      lookupA c.tokenAccounts a.vaultAddr = none ∧
      t = [TokenOp.transfer a.makerAtaA a.vaultAddr a.maker a.deposit] ∧
      runOps { c with tokenAccounts := setA c.tokenAccounts a.vaultAddr ⟨a.mintA, a.escrowAddr, 0⟩ } t = .ok crun ∧
      c' = { crun with escrows := (setA crun.escrows a.escrowAddr
              ⟨a.seed, a.mintA, a.mintB, a.receive, escrowBumpOf a.maker a.seed⟩) } := by
  unfold make at h
  simp only [bind_ok_iff, getOpt_ok_iff, ensure_ok_iff, pure_ok_iff, Prod.mk.injEq,
    exists_and_left, exists_const] at h
  obtain ⟨dA, hdA, dB, hdB, hataAddr, ma, hma, ⟨hmam, hmao⟩, headdr, henone, hvaddr,
    hvnone, crun, hrun, hc', ht⟩ := h
  exact ⟨ma, crun, hataAddr, hma, hmam, hmao, headdr, henone, hvaddr, hvnone,
    ht.symm, ht ▸ hrun, hc'.symm⟩

/-- Everything a successful `take` implies: the constraints it checked
(including the maker-binding `seeds` check on the record), the exact
token-program trace in order, and the final state.  `cmid` is the ledger
after the two `init_if_needed` account creations. -/
theorem take_ok_inv {c : Chain} {a : TakeArgs} {c' : Chain} {t : List TokenOp}
    (h : take c a = .ok (c', t)) :
    ∃ decA decB e v cmid crun,
      lookupA c.mints a.mintA = some decA ∧
      lookupA c.mints a.mintB = some decB ∧
      a.takerAtaA = Pubkey.ata a.taker a.mintA ∧
      a.takerAtaB = Pubkey.ata a.taker a.mintB ∧
      a.makerAtaB = Pubkey.ata a.maker a.mintB ∧
      lookupA c.escrows a.escrowAddr = some e ∧
      a.escrowAddr = Pubkey.escrowPda a.maker e.seed ∧
      e.bump = escrowBumpOf a.maker e.seed ∧
      e.mint_a = a.mintA ∧ e.mint_b = a.mintB ∧
      a.vaultAddr = Pubkey.ata a.escrowAddr a.mintA ∧
      lookupA cmid.tokenAccounts a.vaultAddr = some v ∧
      v.mint = a.mintA ∧ v.owner = a.escrowAddr ∧
      (∀ x y, lookupA c.tokenAccounts x = some y → lookupA cmid.tokenAccounts x = some y) ∧
      cmid.escrows = c.escrows ∧ cmid.mints = c.mints ∧
      t = [TokenOp.transferChecked a.takerAtaB a.mintB a.makerAtaB a.taker e.receive decB,
           TokenOp.transferChecked a.vaultAddr a.mintA a.takerAtaA a.escrowAddr v.amount decA,
           TokenOp.closeAccount a.vaultAddr a.taker a.escrowAddr] ∧
      runOps cmid t = .ok crun ∧
      c' = { crun with escrows := removeA crun.escrows a.escrowAddr } := by
  unfold take at h
  simp only [bind_ok_iff, getOpt_ok_iff, ensure_ok_iff, pure_ok_iff, Prod.mk.injEq,
    exists_and_left, exists_const] at h
  obtain ⟨decA, hdecA, decB, hdecB, htaA, c1, hinit1, htaB, tb, htb, ⟨htbm, htbo⟩,
    hmaB, cmid, hinit2, e, he, ⟨hseeds, hbump⟩, ⟨hema, hemb⟩, hvaddr, v, hv,
    ⟨hvm, hvo⟩, crun, hrun, hc', ht⟩ := h
  obtain ⟨hesc1, hmint1⟩ := initIfNeeded_frame hinit1
  obtain ⟨hesc2, hmint2⟩ := initIfNeeded_frame hinit2
  refine ⟨decA, decB, e, v, cmid, crun, hdecA, hdecB, htaA, htaB, hmaB, ?_, hseeds,
    hbump, hema, hemb, hvaddr, hv, hvm, hvo, ?_, hesc2.trans hesc1, hmint2.trans hmint1,
    ht.symm, ht ▸ hrun, hc'.symm⟩
  · rw [hesc2.trans hesc1] at he
    exact he
  · intro x y hx
    exact initIfNeeded_preserve hinit2 (initIfNeeded_preserve hinit1 hx)

theorem ok_bind {α β : Type} {a : α} {f : α → Except EscrowError β} :
    (Except.ok a >>= f : Except EscrowError β) = f a := rfl

theorem error_bind {α β : Type} {e : EscrowError} {f : α → Except EscrowError β} :
    (Except.error e >>= f : Except EscrowError β) = .error e := rfl

theorem getOpt_some {β : Type} {b : β} {e : EscrowError} : getOpt (some b) e = .ok b := rfl

theorem ensure_true {p : Prop} [Decidable p] {e : EscrowError} (hp : p) :
    ensure p e = .ok () := if_pos hp

theorem ensure_false {p : Prop} [Decidable p] {e : EscrowError} (hp : ¬p) :
    ensure p e = .error e := if_neg hp

/-- Forward evaluation of a successful `doTransfer`. -/
theorem doTransfer_ok_of (c : Chain) (s d auth : Pubkey) (amt : Nat) (sa da : TokenAccount)
    (hsa : lookupA c.tokenAccounts s = some sa) (hown : sa.owner = auth)
    (hamt : amt ≤ sa.amount)
    (hda : lookupA (setA c.tokenAccounts s { sa with amount := sa.amount - amt }) d = some da)
    (hmint : da.mint = sa.mint) (hov : da.amount + amt < 2 ^ 64) :
    doTransfer c s d auth amt = .ok { c with tokenAccounts := (setA
      (setA c.tokenAccounts s { sa with amount := sa.amount - amt })
      d { da with amount := da.amount + amt }) } := by
  unfold doTransfer
  rw [hown] at hda
  rw [hsa]
  simp [hown, hamt, hda, hmint, hov]
  omega

/-- The maker's associated token account is never the vault (the vault's
authority is the escrow PDA derived from the maker, never the maker). -/
theorem makerAta_ne_vault (maker mint mint' : Pubkey) (seed : Nat) :
    Pubkey.ata maker mint ≠ Pubkey.ata (Pubkey.escrowPda maker seed) mint' := by
  intro hcontra
  have h2 := (Pubkey.ata.injEq _ _ _ _).mp hcontra
  exact escrowPda_ne_self maker seed h2.1.symm

/-- Post-state of a successful `make`: the record is exactly
`{seed, mintA, mintB, receive, bump}` and the vault holds exactly the
deposit, with the escrow PDA as its authority. -/
theorem make_post {c : Chain} {a : MakeArgs} {c' : Chain} {t : List TokenOp}
    (h : make c a = .ok (c', t)) :
    lookupA c'.escrows a.escrowAddr =
      some ⟨a.seed, a.mintA, a.mintB, a.receive, escrowBumpOf a.maker a.seed⟩ ∧
    lookupA c'.tokenAccounts a.vaultAddr = some ⟨a.mintA, a.escrowAddr, a.deposit⟩ := by
  obtain ⟨ma, crun, hataAddr, hma, hmam, hmao, headdr, henone, hvaddr, hvnone, ht,
    hrun, hc'⟩ := make_ok_inv h
  have hne : a.makerAtaA ≠ a.vaultAddr := by
    rw [hataAddr, hvaddr, headdr]
    exact makerAta_ne_vault a.maker a.mintA a.mintA a.seed
  subst ht
  rw [runOps_cons_ok] at hrun
  obtain ⟨c1, hstep, hnil⟩ := hrun
  rw [runOps_nil_ok] at hnil
  subst hnil
  have hstep' : doTransfer { c with tokenAccounts := (setA c.tokenAccounts a.vaultAddr
      ⟨a.mintA, a.escrowAddr, 0⟩) } a.makerAtaA a.vaultAddr a.maker a.deposit = .ok c1 := hstep
  obtain ⟨sa, da, hsa, hown, hamt, hda, hdam, hov, hcrun⟩ := doTransfer_ok_inv hstep'
  have hsa' : lookupA (setA c.tokenAccounts a.vaultAddr ⟨a.mintA, a.escrowAddr, 0⟩)
      a.makerAtaA = some ma := by
    rw [lookupA_setA_ne _ _ hne]
    exact hma
  have hsaeq : sa = ma := by
    rw [hsa] at hsa'
    exact (Option.some.injEq _ _).mp hsa'
  subst hsaeq
  have hda' : lookupA (setA (setA c.tokenAccounts a.vaultAddr ⟨a.mintA, a.escrowAddr, 0⟩)
      a.makerAtaA { sa with amount := sa.amount - a.deposit }) a.vaultAddr =
      some ⟨a.mintA, a.escrowAddr, 0⟩ := by
    rw [lookupA_setA_ne _ _ (Ne.symm hne), lookupA_setA_self]
  have hdaeq : da = ⟨a.mintA, a.escrowAddr, 0⟩ := by
    rw [hda] at hda'
    exact (Option.some.injEq _ _).mp hda'
  subst hdaeq
  subst hc'
  subst hcrun
  constructor
  · exact lookupA_setA_self _ _ _
  · simpa using lookupA_setA_self (setA (setA c.tokenAccounts a.vaultAddr
      ⟨a.mintA, a.escrowAddr, 0⟩) a.makerAtaA { sa with amount := sa.amount - a.deposit })
      a.vaultAddr ⟨a.mintA, a.escrowAddr, 0 + a.deposit⟩

/-- A valid `make` — maker-signed, canonical accounts, sufficient
balance, fresh (maker, seed) — succeeds. -/
theorem make_valid_ok (c : Chain) (a : MakeArgs) (dA dB : Nat) (ma : TokenAccount)
    (hdA : lookupA c.mints a.mintA = some dA)
    (hdB : lookupA c.mints a.mintB = some dB)
    (hataAddr : a.makerAtaA = Pubkey.ata a.maker a.mintA)
    (hma : lookupA c.tokenAccounts a.makerAtaA = some ma)
    (hmam : ma.mint = a.mintA) (hmao : ma.owner = a.maker)
    (hbal : a.deposit ≤ ma.amount) (hfit : ma.amount < 2 ^ 64)
    (headdr : a.escrowAddr = Pubkey.escrowPda a.maker a.seed)
    (hnorec : lookupA c.escrows a.escrowAddr = none)
    (hvaddr : a.vaultAddr = Pubkey.ata a.escrowAddr a.mintA)
    (hnovault : lookupA c.tokenAccounts a.vaultAddr = none) :
    make c a = .ok
      ({ mints := c.mints
         tokenAccounts := (setA (setA (setA c.tokenAccounts a.vaultAddr
           ⟨a.mintA, a.escrowAddr, 0⟩) a.makerAtaA ⟨ma.mint, ma.owner, ma.amount - a.deposit⟩)
           a.vaultAddr ⟨a.mintA, a.escrowAddr, 0 + a.deposit⟩)
         escrows := (setA c.escrows a.escrowAddr
           ⟨a.seed, a.mintA, a.mintB, a.receive, escrowBumpOf a.maker a.seed⟩) },
       [TokenOp.transfer a.makerAtaA a.vaultAddr a.maker a.deposit]) := by
  have hne : a.makerAtaA ≠ a.vaultAddr := by
    rw [hataAddr, hvaddr, headdr]
    exact makerAta_ne_vault a.maker a.mintA a.mintA a.seed
  have h1 : lookupA (setA c.tokenAccounts a.vaultAddr ⟨a.mintA, a.escrowAddr, 0⟩)
      a.makerAtaA = some ma := by
    rw [lookupA_setA_ne _ _ hne]
    exact hma
  have h3 : lookupA (setA (setA c.tokenAccounts a.vaultAddr ⟨a.mintA, a.escrowAddr, 0⟩)
      a.makerAtaA { ma with amount := ma.amount - a.deposit }) a.vaultAddr =
      some ⟨a.mintA, a.escrowAddr, 0⟩ := by
    rw [lookupA_setA_ne _ _ (Ne.symm hne), lookupA_setA_self]
  have hstep := doTransfer_ok_of
    { c with tokenAccounts := (setA c.tokenAccounts a.vaultAddr ⟨a.mintA, a.escrowAddr, 0⟩) }
    a.makerAtaA a.vaultAddr a.maker a.deposit ma ⟨a.mintA, a.escrowAddr, 0⟩
    h1 hmao hbal h3 (by simp [hmam]) (by simp; omega)
  unfold make
  simp only [bind_ok_iff, getOpt_ok_iff, ensure_ok_iff, pure_ok_iff, Prod.mk.injEq,
    exists_and_left, exists_const]
  exact ⟨dA, hdA, dB, hdB, hataAddr, ma, hma, ⟨hmam, hmao⟩, headdr, hnorec, hvaddr,
    hnovault, _, runOps_cons_ok.mpr ⟨_, hstep, runOps_nil_ok.mpr rfl⟩, rfl, trivial⟩

/-- If `refund` commits, the caller's vault account was the PDA
`["vault", escrow]` (refund.rs lines 25-32). -/
theorem refund_vault_is_pda {c : Chain} {a : RefundArgs} {r : Chain × List TokenOp}
    (h : refund c a = .ok r) : a.vaultAddr = Pubkey.vaultPda a.escrowAddr := by
  obtain ⟨cx, tx⟩ := r
  obtain ⟨ma, e, v, crun, _, _, _, _, _, _, _, _, hvaddr, _⟩ := refund_ok_inv h
  exact hvaddr

/-- If `take` commits, the escrow record existed and the supplied maker
is the one whose identity derives the record's address. -/
theorem take_maker_from_seeds {c : Chain} {a : TakeArgs} {r : Chain × List TokenOp}
    (h : take c a = .ok r) :
    ∃ e, lookupA c.escrows a.escrowAddr = some e ∧
      a.escrowAddr = Pubkey.escrowPda a.maker e.seed := by
  obtain ⟨cx, tx⟩ := r
  obtain ⟨decA, decB, e, v, cmid, crun, _, _, _, _, _, he, hseeds, _⟩ := take_ok_inv h
  exact ⟨e, he, hseeds⟩

/-- `take` fails when the record does not exist. -/
theorem take_fails_without_record {c : Chain} {a : TakeArgs}
    (hnone : lookupA c.escrows a.escrowAddr = none) :
    succeeded (take c a) = false := by
  cases hr : take c a with
  | error e => rfl
  | ok r =>
    obtain ⟨e, he, _⟩ := take_maker_from_seeds hr
    rw [hnone] at he
    exact Option.noConfusion he

/-- `refund` fails when the record does not exist. -/
theorem refund_fails_without_record {c : Chain} {a : RefundArgs}
    (hnone : lookupA c.escrows a.escrowAddr = none) :
    succeeded (refund c a) = false := by
  cases hr : refund c a with
  | error e => rfl
  | ok r =>
    obtain ⟨cx, tx⟩ := r
    obtain ⟨ma, e, v, crun, _, _, _, _, he, _⟩ := refund_ok_inv hr
    rw [hnone] at he
    exact Option.noConfusion he

/-- Concrete scenario from spec §8: mint A is `raw 10` (6 decimals),
mint B is `raw 11` (9 decimals), the maker `raw 1` holds 100 of mint A. -/
def cPreMake : Chain :=
  { mints := [(Pubkey.raw 10, 6), (Pubkey.raw 11, 9)]
    tokenAccounts := [(Pubkey.ata (Pubkey.raw 1) (Pubkey.raw 10),
                       ⟨Pubkey.raw 10, Pubkey.raw 1, 100⟩)]
    escrows := [] }

/-- Make(seed 5, deposit 100, receive 50) by maker `raw 1`. -/
def argsMake : MakeArgs :=
  { maker := Pubkey.raw 1
    mintA := Pubkey.raw 10
    mintB := Pubkey.raw 11
    makerAtaA := Pubkey.ata (Pubkey.raw 1) (Pubkey.raw 10)
    escrowAddr := Pubkey.escrowPda (Pubkey.raw 1) 5
    vaultAddr := Pubkey.ata (Pubkey.escrowPda (Pubkey.raw 1) 5) (Pubkey.raw 10)
    seed := 5
    deposit := 100
    receive := 50 }

/-- The ledger after that `make`. -/
def cPostMake : Chain := ((make cPreMake argsMake).toOption.getD (cPreMake, [])).1

/-- Same scenario but the maker is `raw 2` (same seed, mints, amounts). -/
def cPreMakeB : Chain :=
  { mints := [(Pubkey.raw 10, 6), (Pubkey.raw 11, 9)]
    tokenAccounts := [(Pubkey.ata (Pubkey.raw 2) (Pubkey.raw 10),
                       ⟨Pubkey.raw 10, Pubkey.raw 2, 100⟩)]
    escrows := [] }

/-- Make(seed 5, deposit 100, receive 50) by maker `raw 2`. -/
def argsMakeB : MakeArgs :=
  { maker := Pubkey.raw 2
    mintA := Pubkey.raw 10
    mintB := Pubkey.raw 11
    makerAtaA := Pubkey.ata (Pubkey.raw 2) (Pubkey.raw 10)
    escrowAddr := Pubkey.escrowPda (Pubkey.raw 2) 5
    vaultAddr := Pubkey.ata (Pubkey.escrowPda (Pubkey.raw 2) 5) (Pubkey.raw 10)
    seed := 5
    deposit := 100
    receive := 50 }

/-- The ledger after maker `raw 2`'s `make`. -/
def cPostMakeB : Chain := ((make cPreMakeB argsMakeB).toOption.getD (cPreMakeB, [])).1

/-- An active escrow (record plus funded vault, as `make` produces them)
with a taker `raw 2` holding exactly 50 of mint B. -/
def cPreTake : Chain :=
  { mints := [(Pubkey.raw 10, 6), (Pubkey.raw 11, 9)]
    tokenAccounts := [(Pubkey.ata (Pubkey.raw 2) (Pubkey.raw 11),
                       ⟨Pubkey.raw 11, Pubkey.raw 2, 50⟩),
                      (Pubkey.ata (Pubkey.escrowPda (Pubkey.raw 1) 5) (Pubkey.raw 10),
                       ⟨Pubkey.raw 10, Pubkey.escrowPda (Pubkey.raw 1) 5, 100⟩)]
    escrows := [(Pubkey.escrowPda (Pubkey.raw 1) 5,
                 ⟨5, Pubkey.raw 10, Pubkey.raw 11, 50, 255⟩)] }

/-- The same active escrow but the taker holds only 49 of mint B. -/
def cPreTakePoor : Chain :=
  { mints := [(Pubkey.raw 10, 6), (Pubkey.raw 11, 9)]
    tokenAccounts := [(Pubkey.ata (Pubkey.raw 2) (Pubkey.raw 11),
                       ⟨Pubkey.raw 11, Pubkey.raw 2, 49⟩),
                      (Pubkey.ata (Pubkey.escrowPda (Pubkey.raw 1) 5) (Pubkey.raw 10),
                       ⟨Pubkey.raw 10, Pubkey.escrowPda (Pubkey.raw 1) 5, 100⟩)]
    escrows := [(Pubkey.escrowPda (Pubkey.raw 1) 5,
                 ⟨5, Pubkey.raw 10, Pubkey.raw 11, 50, 255⟩)] }

/-- Take by taker `raw 2` on maker `raw 1`'s escrow. -/
def argsTake : TakeArgs :=
  { taker := Pubkey.raw 2
    maker := Pubkey.raw 1
    mintA := Pubkey.raw 10
    mintB := Pubkey.raw 11
    takerAtaA := Pubkey.ata (Pubkey.raw 2) (Pubkey.raw 10)
    takerAtaB := Pubkey.ata (Pubkey.raw 2) (Pubkey.raw 11)
    makerAtaB := Pubkey.ata (Pubkey.raw 1) (Pubkey.raw 11)
    escrowAddr := Pubkey.escrowPda (Pubkey.raw 1) 5
    vaultAddr := Pubkey.ata (Pubkey.escrowPda (Pubkey.raw 1) 5) (Pubkey.raw 10) }

/-- The result of that `take`. -/
def takeRes : Chain × List TokenOp := (take cPreTake argsTake).toOption.getD (cPreTake, [])

/-- A state in which `refund`'s account shape is satisfiable: the vault
sits at the `["vault", escrow]` PDA that refund.rs derives (which `make`
never creates — see the C3 theorem). -/
def cSynthRefund : Chain :=
  { mints := [(Pubkey.raw 10, 6), (Pubkey.raw 11, 9)]
    tokenAccounts := [(Pubkey.ata (Pubkey.raw 1) (Pubkey.raw 10),
                       ⟨Pubkey.raw 10, Pubkey.raw 1, 0⟩),
                      (Pubkey.ata (Pubkey.raw 3) (Pubkey.raw 10),
                       ⟨Pubkey.raw 10, Pubkey.raw 3, 0⟩),
                      (Pubkey.vaultPda (Pubkey.escrowPda (Pubkey.raw 1) 5),
                       ⟨Pubkey.raw 10, Pubkey.escrowPda (Pubkey.raw 1) 5, 100⟩)]
    escrows := [(Pubkey.escrowPda (Pubkey.raw 1) 5,
                 ⟨5, Pubkey.raw 10, Pubkey.raw 11, 50, 255⟩)] }

/-- Refund by the original maker `raw 1`. -/
def argsRefund : RefundArgs :=
  { maker := Pubkey.raw 1
    mintA := Pubkey.raw 10
    makerAtaA := Pubkey.ata (Pubkey.raw 1) (Pubkey.raw 10)
    escrowAddr := Pubkey.escrowPda (Pubkey.raw 1) 5
    vaultAddr := Pubkey.vaultPda (Pubkey.escrowPda (Pubkey.raw 1) 5) }

/-- The result of that `refund`. -/
def refundRes : Chain × List TokenOp :=
  (refund cSynthRefund argsRefund).toOption.getD (cSynthRefund, [])

/-- Refund attempted by `raw 3`, who is not the maker. -/
def argsRefundWrongSigner : RefundArgs :=
  { maker := Pubkey.raw 3
    mintA := Pubkey.raw 10
    makerAtaA := Pubkey.ata (Pubkey.raw 3) (Pubkey.raw 10)
    escrowAddr := Pubkey.escrowPda (Pubkey.raw 1) 5
    vaultAddr := Pubkey.vaultPda (Pubkey.escrowPda (Pubkey.raw 1) 5) }

/-- C1: For every Take on an Active escrow, the operation first
transfers exactly `EscrowRecord.receiveAmount` of mintB from the taker
to the maker (counter-payment), then transfers the Vault's entire
current mintA balance to the taker (payout), then closes the Vault and
the Escrow Record, so that after a successful Take neither the Escrow
Record nor the Vault exists. -/
theorem C1_take_counter_payment_payout_teardown
    (c : Chain) (a : TakeArgs) (c' : Chain) (t : List TokenOp)
    (h : take c a = .ok (c', t)) :
    ∃ e vAmt decA decB,
      lookupA c.escrows a.escrowAddr = some e ∧
      t = [TokenOp.transferChecked a.takerAtaB a.mintB a.makerAtaB a.taker e.receive decB,
           TokenOp.transferChecked a.vaultAddr a.mintA a.takerAtaA a.escrowAddr vAmt decA,
           TokenOp.closeAccount a.vaultAddr a.taker a.escrowAddr] ∧
      (∀ v0, lookupA c.tokenAccounts a.vaultAddr = some v0 → vAmt = v0.amount) ∧
      lookupA c'.escrows a.escrowAddr = none ∧
      lookupA c'.tokenAccounts a.vaultAddr = none := by
  obtain ⟨decA, decB, e, v, cmid, crun, hdecA, hdecB, htaA, htaB, hmaB, he, hseeds, hbump,
    hema, hemb, hvaddr, hv, hvm, hvo, hpres, hescmid, hmintmid, ht, hrun, hc'⟩ := take_ok_inv h
  refine ⟨e, v.amount, decA, decB, he, ht, ?_, ?_, ?_⟩
  · intro v0 hv0
    have hcm := hpres _ _ hv0
    rw [hv] at hcm
    injection hcm with hveq
    rw [hveq]
  · rw [hc']
    exact lookupA_removeA_self _ _
  · rw [ht] at hrun
    rw [runOps_cons_ok] at hrun
    obtain ⟨d1, h1, hrun⟩ := hrun
    rw [runOps_cons_ok] at hrun
    obtain ⟨d2, h2, hrun⟩ := hrun
    rw [runOps_cons_ok] at hrun
    obtain ⟨d3, h3, hrun⟩ := hrun
    rw [runOps_nil_ok] at hrun
    obtain ⟨acc, hacc, hown2, hz, hd3⟩ := close_ok_inv h3
    rw [hc', ← hrun, hd3]
    exact lookupA_removeA_self _ _

/-- C1 witness: the spec §8 scenario — taker `raw 2` takes maker
`raw 1`'s escrow of 100 mint A for 50 mint B. -/
theorem C1_witness :
    ∃ e vAmt decA decB,
      lookupA cPreTake.escrows argsTake.escrowAddr = some e ∧
      takeRes.2 = [TokenOp.transferChecked argsTake.takerAtaB argsTake.mintB
                     argsTake.makerAtaB argsTake.taker e.receive decB,
           TokenOp.transferChecked argsTake.vaultAddr argsTake.mintA
             argsTake.takerAtaA argsTake.escrowAddr vAmt decA,
           TokenOp.closeAccount argsTake.vaultAddr argsTake.taker argsTake.escrowAddr] ∧
      (∀ v0, lookupA cPreTake.tokenAccounts argsTake.vaultAddr = some v0 → vAmt = v0.amount) ∧
      lookupA takeRes.1.escrows argsTake.escrowAddr = none ∧
      lookupA takeRes.1.tokenAccounts argsTake.vaultAddr = none :=
  C1_take_counter_payment_payout_teardown cPreTake argsTake takeRes.1 takeRes.2 rfl

/-- C2: in every operation, every transfer out of the Vault (the payout
in Take and the return in Refund) is authorized by the Escrow Record's
derived authority, reconstructed from the seeds (namespace "escrow",
maker identity, seed nonce, stored disambiguator), and never by any
external signer's (raw) key. -/
theorem C2_vault_outflow_authorized_by_derived_authority :
    (∀ c a c' t, take c a = .ok (c', t) →
       ∃ e, lookupA c.escrows a.escrowAddr = some e ∧
         e.bump = escrowBumpOf a.maker e.seed ∧
         ∀ op ∈ t, TokenOp.debited op = a.vaultAddr →
           TokenOp.authority op = Pubkey.escrowPda a.maker e.seed ∧
           ∀ k, TokenOp.authority op ≠ Pubkey.raw k) ∧
    (∀ c a c' t, refund c a = .ok (c', t) →
       ∃ e, lookupA c.escrows a.escrowAddr = some e ∧
         e.bump = escrowBumpOf a.maker e.seed ∧
         ∀ op ∈ t, TokenOp.debited op = a.vaultAddr →
           TokenOp.authority op = Pubkey.escrowPda a.maker e.seed ∧
           ∀ k, TokenOp.authority op ≠ Pubkey.raw k) := by
  constructor
  · intro c a c' t h
    obtain ⟨decA, decB, e, v, cmid, crun, hdecA, hdecB, htaA, htaB, hmaB, he, hseeds, hbump,
      hema, hemb, hvaddr, hv, hvm, hvo, hpres, hescmid, hmintmid, ht, hrun, hc'⟩ := take_ok_inv h
    refine ⟨e, he, hbump, ?_⟩
    intro op hop hdeb
    subst ht
    simp only [List.mem_cons, List.not_mem_nil, or_false] at hop
    have hauth : TokenOp.authority op = a.escrowAddr := by
      rcases hop with hop | hop | hop
      · subst hop
        simp only [TokenOp.debited] at hdeb
        rw [htaB, hvaddr] at hdeb
        have hinj := (Pubkey.ata.injEq _ _ _ _).mp hdeb
        simp only [TokenOp.authority]
        exact hinj.1
      · subst hop
        rfl
      · subst hop
        rfl
    rw [hauth, hseeds]
    exact ⟨rfl, fun k hk => Pubkey.noConfusion hk⟩
  · intro c a c' t h
    obtain ⟨ma, e, v, crun, hataAddr, hma, hmam, hmao, he, hseeds, hbump, hminta,
      hvaddr, hv, hvm, hvo, ht, hrun, hc'⟩ := refund_ok_inv h
    refine ⟨e, he, hbump, ?_⟩
    intro op hop hdeb
    subst ht
    simp only [List.mem_cons, List.not_mem_nil, or_false] at hop
    have hauth : TokenOp.authority op = a.escrowAddr := by
      rcases hop with hop | hop
      · subst hop
        rfl
      · subst hop
        rfl
    rw [hauth, hseeds]
    exact ⟨rfl, fun k hk => Pubkey.noConfusion hk⟩

/-- C2 witness: the concrete take and the concrete refund. -/
theorem C2_witness :
    (∃ e, lookupA cPreTake.escrows argsTake.escrowAddr = some e ∧
       e.bump = escrowBumpOf argsTake.maker e.seed ∧
       ∀ op ∈ takeRes.2, TokenOp.debited op = argsTake.vaultAddr →
         TokenOp.authority op = Pubkey.escrowPda argsTake.maker e.seed ∧
         ∀ k, TokenOp.authority op ≠ Pubkey.raw k) ∧
    (∃ e, lookupA cSynthRefund.escrows argsRefund.escrowAddr = some e ∧
       e.bump = escrowBumpOf argsRefund.maker e.seed ∧
       ∀ op ∈ refundRes.2, TokenOp.debited op = argsRefund.vaultAddr →
         TokenOp.authority op = Pubkey.escrowPda argsRefund.maker e.seed ∧
         ∀ k, TokenOp.authority op ≠ Pubkey.raw k) :=
  ⟨C2_vault_outflow_authorized_by_derived_authority.1 cPreTake argsTake
     takeRes.1 takeRes.2 rfl,
   C2_vault_outflow_authorized_by_derived_authority.2 cSynthRefund argsRefund
     refundRes.1 refundRes.2 rfl⟩

/-- After a successful `take`, neither record nor vault exists. -/
theorem take_post_gone {c : Chain} {a : TakeArgs} {c' : Chain} {t : List TokenOp}
    (h : take c a = .ok (c', t)) :
    lookupA c'.escrows a.escrowAddr = none ∧
    lookupA c'.tokenAccounts a.vaultAddr = none := by
  obtain ⟨decA, decB, e, v, cmid, crun, hdecA, hdecB, htaA, htaB, hmaB, he, hseeds, hbump,
    hema, hemb, hvaddr, hv, hvm, hvo, hpres, hescmid, hmintmid, ht, hrun, hc'⟩ := take_ok_inv h
  constructor
  · rw [hc']
    exact lookupA_removeA_self _ _
  · rw [ht, runOps_cons_ok] at hrun
    obtain ⟨d1, h1, hrun⟩ := hrun
    rw [runOps_cons_ok] at hrun
    obtain ⟨d2, h2, hrun⟩ := hrun
    rw [runOps_cons_ok] at hrun
    obtain ⟨d3, h3, hrun⟩ := hrun
    rw [runOps_nil_ok] at hrun
    obtain ⟨acc, hacc, hown2, hz, hd3⟩ := close_ok_inv h3
    rw [hc', ← hrun, hd3]
    exact lookupA_removeA_self _ _

/-- After a successful `refund`, neither record nor vault exists. -/
theorem refund_post_gone {c : Chain} {a : RefundArgs} {c' : Chain} {t : List TokenOp}
    (h : refund c a = .ok (c', t)) :
    lookupA c'.escrows a.escrowAddr = none ∧
    lookupA c'.tokenAccounts a.vaultAddr = none := by
  obtain ⟨ma, e, v, crun, hataAddr, hma, hmam, hmao, he, hseeds, hbump, hminta,
    hvaddr, hv, hvm, hvo, ht, hrun, hc'⟩ := refund_ok_inv h
  constructor
  · rw [hc']
    exact lookupA_removeA_self _ _
  · rw [ht, runOps_cons_ok] at hrun
    obtain ⟨d1, h1, hrun⟩ := hrun
    rw [runOps_cons_ok] at hrun
    obtain ⟨d2, h2, hrun⟩ := hrun
    rw [runOps_nil_ok] at hrun
    obtain ⟨acc, hacc, hown2, hz, hd2⟩ := close_ok_inv h2
    rw [hc', ← hrun, hd2]
    exact lookupA_removeA_self _ _

/-- Refund of the concrete escrow by its original maker, with a
caller-chosen vault account. -/
def argsRefundPostMake (v : Pubkey) : RefundArgs :=
  { maker := Pubkey.raw 1
    mintA := Pubkey.raw 10
    makerAtaA := Pubkey.ata (Pubkey.raw 1) (Pubkey.raw 10)
    escrowAddr := Pubkey.escrowPda (Pubkey.raw 1) 5
    vaultAddr := v }

/-- C3 (code bug): for every Active escrow created by Make, the claim
says a maker-signed Refund succeeds and returns the Vault's balance.
But refund.rs derives the vault as the PDA `["vault", escrow]` with
`bump = escrow.vault_bump` — a field state.rs's `Escrow` does not
define — while make.rs creates and funds the vault as the associated
token account of `(escrow, mint_a)`.  After the concrete `make`
(maker `raw 1`, seed 5, deposit 100) the funded vault exists at the
associated address, that address is not the PDA refund.rs demands, and
the maker's `refund` fails whatever vault account is supplied. -/
theorem C3_refund_never_reaches_make_vault :
    succeeded (make cPreMake argsMake) = true ∧
    lookupA cPostMake.tokenAccounts argsMake.vaultAddr =
      some ⟨Pubkey.raw 10, Pubkey.escrowPda (Pubkey.raw 1) 5, 100⟩ ∧
    argsMake.vaultAddr ≠ Pubkey.vaultPda (Pubkey.escrowPda (Pubkey.raw 1) 5) ∧
    (∀ v, succeeded (refund cPostMake (argsRefundPostMake v)) = false) := by
  refine ⟨rfl, rfl, by decide, ?_⟩
  intro v
  by_cases hv : v = Pubkey.vaultPda (Pubkey.escrowPda (Pubkey.raw 1) 5)
  · subst hv
    rfl
  · cases hr : refund cPostMake (argsRefundPostMake v) with
    | error e => rfl
    | ok r => exact absurd (refund_vault_is_pda hr) hv

/-- C4: for every valid Make(seed, d, r) — maker-signed, the maker
holding at least `d` of mintA, and no prior record or vault for
(maker, seed) — `make` succeeds, the post-state Vault balance equals
`d`, and the Escrow Record's fields equal (seed, mintA, mintB, r) plus
the stored disambiguator. -/
theorem C4_make_funds_vault_and_records_fields
    (c : Chain) (a : MakeArgs) (dA dB : Nat) (ma : TokenAccount)
    (hdA : lookupA c.mints a.mintA = some dA)
    (hdB : lookupA c.mints a.mintB = some dB)
    (hataAddr : a.makerAtaA = Pubkey.ata a.maker a.mintA)
    (hma : lookupA c.tokenAccounts a.makerAtaA = some ma)
    (hmam : ma.mint = a.mintA) (hmao : ma.owner = a.maker)
    (hbal : a.deposit ≤ ma.amount) (hfit : ma.amount < 2 ^ 64)
    (headdr : a.escrowAddr = Pubkey.escrowPda a.maker a.seed)
    (hnorec : lookupA c.escrows a.escrowAddr = none)
    (hvaddr : a.vaultAddr = Pubkey.ata a.escrowAddr a.mintA)
    (hnovault : lookupA c.tokenAccounts a.vaultAddr = none) :
    ∃ c' t, make c a = .ok (c', t) ∧
      lookupA c'.tokenAccounts a.vaultAddr = some ⟨a.mintA, a.escrowAddr, a.deposit⟩ ∧
      lookupA c'.escrows a.escrowAddr =
        some ⟨a.seed, a.mintA, a.mintB, a.receive, escrowBumpOf a.maker a.seed⟩ := by
  have hmk := make_valid_ok c a dA dB ma hdA hdB hataAddr hma hmam hmao hbal hfit
    headdr hnorec hvaddr hnovault
  obtain ⟨hrec, hvault⟩ := make_post hmk
  exact ⟨_, _, hmk, hvault, hrec⟩

/-- C4 witness: the concrete make (maker `raw 1`, seed 5, deposit 100,
receive 50). -/
theorem C4_witness :
    ∃ c' t, make cPreMake argsMake = .ok (c', t) ∧
      lookupA c'.tokenAccounts argsMake.vaultAddr =
        some ⟨argsMake.mintA, argsMake.escrowAddr, argsMake.deposit⟩ ∧
      lookupA c'.escrows argsMake.escrowAddr =
        some ⟨argsMake.seed, argsMake.mintA, argsMake.mintB, argsMake.receive,
              escrowBumpOf argsMake.maker argsMake.seed⟩ :=
  C4_make_funds_vault_and_records_fields cPreMake argsMake 6 9
    ⟨Pubkey.raw 10, Pubkey.raw 1, 100⟩ rfl rfl rfl rfl rfl rfl (by decide) (by decide)
    rfl rfl rfl rfl

/-- C5: for every Escrow Record, at most one of Take and Refund ever
succeeds: a successful Take or Refund destroys the record and the vault,
and any later Take or Refund referencing the same record address (hence
the same (maker, seed), the derivation being injective) fails with no
state change. -/
theorem C5_at_most_one_settlement :
    (∀ c a c' t, take c a = .ok (c', t) →
       lookupA c'.escrows a.escrowAddr = none ∧
       lookupA c'.tokenAccounts a.vaultAddr = none ∧
       (∀ a2 : TakeArgs, a2.escrowAddr = a.escrowAddr → succeeded (take c' a2) = false) ∧
       (∀ a2 : RefundArgs, a2.escrowAddr = a.escrowAddr → succeeded (refund c' a2) = false)) ∧
    (∀ c a c' t, refund c a = .ok (c', t) →
       lookupA c'.escrows a.escrowAddr = none ∧
       lookupA c'.tokenAccounts a.vaultAddr = none ∧
       (∀ a2 : TakeArgs, a2.escrowAddr = a.escrowAddr → succeeded (take c' a2) = false) ∧
       (∀ a2 : RefundArgs, a2.escrowAddr = a.escrowAddr → succeeded (refund c' a2) = false)) := by
  constructor
  · intro c a c' t h
    obtain ⟨h1, h2⟩ := take_post_gone h
    refine ⟨h1, h2, ?_, ?_⟩
    · intro a2 ha2
      exact take_fails_without_record (by rw [ha2]; exact h1)
    · intro a2 ha2
      exact refund_fails_without_record (by rw [ha2]; exact h1)
  · intro c a c' t h
    obtain ⟨h1, h2⟩ := refund_post_gone h
    refine ⟨h1, h2, ?_, ?_⟩
    · intro a2 ha2
      exact take_fails_without_record (by rw [ha2]; exact h1)
    · intro a2 ha2
      exact refund_fails_without_record (by rw [ha2]; exact h1)

/-- C5 witness: the concrete take and the concrete refund are terminal. -/
theorem C5_witness :
    (lookupA takeRes.1.escrows argsTake.escrowAddr = none ∧
     lookupA takeRes.1.tokenAccounts argsTake.vaultAddr = none ∧
     (∀ a2 : TakeArgs, a2.escrowAddr = argsTake.escrowAddr →
        succeeded (take takeRes.1 a2) = false) ∧
     (∀ a2 : RefundArgs, a2.escrowAddr = argsTake.escrowAddr →
        succeeded (refund takeRes.1 a2) = false)) ∧
    (lookupA refundRes.1.escrows argsRefund.escrowAddr = none ∧
     lookupA refundRes.1.tokenAccounts argsRefund.vaultAddr = none ∧
     (∀ a2 : TakeArgs, a2.escrowAddr = argsRefund.escrowAddr →
        succeeded (take refundRes.1 a2) = false) ∧
     (∀ a2 : RefundArgs, a2.escrowAddr = argsRefund.escrowAddr →
        succeeded (refund refundRes.1 a2) = false)) :=
  ⟨C5_at_most_one_settlement.1 cPreTake argsTake takeRes.1 takeRes.2 rfl,
   C5_at_most_one_settlement.2 cSynthRefund argsRefund refundRes.1 refundRes.2 rfl⟩

/-- C6: for every Active record, Take fails when the taker's mint-B
balance is below `receiveAmount`; the error return means the atomic
transaction aborts, so no transfer happens and no balance changes. -/
theorem C6_take_fails_when_taker_underfunded
    (c : Chain) (a : TakeArgs) (e : Escrow) (tb : TokenAccount)
    (he : lookupA c.escrows a.escrowAddr = some e)
    (htb : lookupA c.tokenAccounts (Pubkey.ata a.taker a.mintB) = some tb)
    (hlt : tb.amount < e.receive) :
    succeeded (take c a) = false := by
  cases hr : take c a with
  | error err => rfl
  | ok r =>
    obtain ⟨cx, tx⟩ := r
    obtain ⟨decA, decB, e2, v, cmid, crun, hdecA, hdecB, htaA, htaB, hmaB, he2, hseeds,
      hbump, hema, hemb, hvaddr, hv, hvm, hvo, hpres, hescmid, hmintmid, ht, hrun,
      hc'⟩ := take_ok_inv hr
    rw [ht, runOps_cons_ok] at hrun
    obtain ⟨d1, h1, _⟩ := hrun
    obtain ⟨hdec, ⟨sa, hsa, hsam⟩, hdo⟩ := transferChecked_ok_inv h1
    obtain ⟨sa2, da, hsa2, hown, hamt, _⟩ := doTransfer_ok_inv hdo
    have htbmid : lookupA cmid.tokenAccounts a.takerAtaB = some tb := by
      rw [htaB]
      exact hpres _ _ htb
    rw [hsa2] at htbmid
    injection htbmid with htbeq
    rw [he] at he2
    injection he2 with heeq
    rw [← heeq] at hamt
    rw [htbeq] at hamt
    exact absurd hamt (by omega)

/-- C6 witness: taker `raw 2` holds 49 < 50 of mint B. -/
theorem C6_witness : succeeded (take cPreTakePoor argsTake) = false :=
  C6_take_fails_when_taker_underfunded cPreTakePoor argsTake
    ⟨5, Pubkey.raw 10, Pubkey.raw 11, 50, 255⟩ ⟨Pubkey.raw 11, Pubkey.raw 2, 49⟩
    rfl rfl (by decide)

/-- C7: for every Active escrow, a Refund whose signer is not the
original maker — the identity from which the record's address was
derived — fails with AuthorizationError (the seeds reconstruction
check); the error return aborts the transaction, so all balances and
the record are unchanged. -/
theorem C7_refund_wrong_signer_fails_authorization
    (c : Chain) (a : RefundArgs) (m0 : Pubkey) (s0 : Nat) (e : Escrow)
    (d0 : Nat) (ma : TokenAccount)
    (hmint : lookupA c.mints a.mintA = some d0)
    (hataAddr : a.makerAtaA = Pubkey.ata a.maker a.mintA)
    (hma : lookupA c.tokenAccounts (Pubkey.ata a.maker a.mintA) = some ma)
    (hmam : ma.mint = a.mintA) (hmao : ma.owner = a.maker)
    (he : lookupA c.escrows a.escrowAddr = some e)
    (horig : a.escrowAddr = Pubkey.escrowPda m0 s0)
    (hwrong : a.maker ≠ m0) :
    refund c a = .error .authorizationError := by
  have hcon : ¬(a.escrowAddr = Pubkey.escrowPda a.maker e.seed ∧
      e.bump = escrowBumpOf a.maker e.seed) := by
    intro hc
    rw [horig] at hc
    exact hwrong ((Pubkey.escrowPda.injEq _ _ _ _).mp hc.1).1.symm
  unfold refund
  rw [hataAddr]
  simp [hmint, hma, hmam, hmao, he, getOpt, ensure, hcon, ok_bind, error_bind]

/-- C7 witness: `raw 3` attempts to refund `raw 1`'s escrow. -/
theorem C7_witness :
    refund cSynthRefund argsRefundWrongSigner = .error .authorizationError :=
  C7_refund_wrong_signer_fails_authorization cSynthRefund argsRefundWrongSigner
    (Pubkey.raw 1) 5 ⟨5, Pubkey.raw 10, Pubkey.raw 11, 50, 255⟩ 6
    ⟨Pubkey.raw 10, Pubkey.raw 3, 0⟩ rfl rfl rfl rfl rfl rfl rfl (by decide)

/-- The result of the concrete `make` (state and trace). -/
def makeRes : Chain × List TokenOp :=
  (make cPreMake argsMake).toOption.getD (cPreMake, [])

/-- C8: in every operation that touches the Vault, the Vault's
held-asset mint equals the Escrow Record's mintA: `make` creates the
two together so they match, and a `take` or `refund` supplied with a
vault of any other mint cannot succeed. -/
theorem C8_vault_mint_equals_record_mintA :
    (∀ c a c' t, make c a = .ok (c', t) →
       ∃ e v, lookupA c'.escrows a.escrowAddr = some e ∧
         lookupA c'.tokenAccounts a.vaultAddr = some v ∧ v.mint = e.mint_a) ∧
    (∀ c a c' t (e : Escrow) (v : TokenAccount), take c a = .ok (c', t) →
       lookupA c.escrows a.escrowAddr = some e →
       lookupA c.tokenAccounts a.vaultAddr = some v → v.mint = e.mint_a) ∧
    (∀ c a c' t (e : Escrow) (v : TokenAccount), refund c a = .ok (c', t) →
       lookupA c.escrows a.escrowAddr = some e →
       lookupA c.tokenAccounts a.vaultAddr = some v → v.mint = e.mint_a) := by
  refine ⟨?_, ?_, ?_⟩
  · intro c a c' t h
    obtain ⟨hrec, hvault⟩ := make_post h
    exact ⟨_, _, hrec, hvault, rfl⟩
  · intro c a c' t e v h he hv0
    obtain ⟨decA, decB, e2, v2, cmid, crun, hdecA, hdecB, htaA, htaB, hmaB, he2, hseeds,
      hbump, hema, hemb, hvaddr, hv, hvm, hvo, hpres, hescmid, hmintmid, ht, hrun,
      hc'⟩ := take_ok_inv h
    have hvmid := hpres _ _ hv0
    rw [hv] at hvmid
    injection hvmid with hveq
    rw [he] at he2
    injection he2 with heeq
    rw [← hveq, hvm, heeq, hema]
  · intro c a c' t e v h he hv0
    obtain ⟨ma, e2, v2, crun, hataAddr, hma, hmam, hmao, he2, hseeds, hbump, hminta,
      hvaddr, hv, hvm, hvo, ht, hrun, hc'⟩ := refund_ok_inv h
    rw [hv0] at hv
    injection hv with hveq
    rw [he] at he2
    injection he2 with heeq
    rw [hveq, hvm, heeq, hminta]

/-- C8 witness: the three concrete operations. -/
theorem C8_witness :
    (∃ e v, lookupA makeRes.1.escrows argsMake.escrowAddr = some e ∧
       lookupA makeRes.1.tokenAccounts argsMake.vaultAddr = some v ∧ v.mint = e.mint_a) ∧
    ((⟨Pubkey.raw 10, Pubkey.escrowPda (Pubkey.raw 1) 5, 100⟩ : TokenAccount).mint =
       (⟨5, Pubkey.raw 10, Pubkey.raw 11, 50, 255⟩ : Escrow).mint_a) ∧
    ((⟨Pubkey.raw 10, Pubkey.escrowPda (Pubkey.raw 1) 5, 100⟩ : TokenAccount).mint =
       (⟨5, Pubkey.raw 10, Pubkey.raw 11, 50, 255⟩ : Escrow).mint_a) :=
  ⟨C8_vault_mint_equals_record_mintA.1 cPreMake argsMake makeRes.1 makeRes.2 rfl,
   C8_vault_mint_equals_record_mintA.2.1 cPreTake argsTake takeRes.1 takeRes.2
     ⟨5, Pubkey.raw 10, Pubkey.raw 11, 50, 255⟩
     ⟨Pubkey.raw 10, Pubkey.escrowPda (Pubkey.raw 1) 5, 100⟩ rfl rfl rfl,
   C8_vault_mint_equals_record_mintA.2.2 cSynthRefund argsRefund refundRes.1 refundRes.2
     ⟨5, Pubkey.raw 10, Pubkey.raw 11, 50, 255⟩
     ⟨Pubkey.raw 10, Pubkey.escrowPda (Pubkey.raw 1) 5, 100⟩ rfl rfl rfl⟩

/-- C9 (code bug): state.rs's `Escrow` persists only (seed, mint_a,
mint_b, receive, bump) — it has no maker field, although take.rs's
`has_one = maker` constraint (and the spec's data model) require one,
so the program does not even compile as given.  Concretely, two makes
by different makers (raw 1 and raw 2) with the same seed, mints and
amounts persist records with identical contents: nothing in the stored
record names the maker. -/
theorem C9_record_stores_no_maker_field :
    succeeded (make cPreMake argsMake) = true ∧
    succeeded (make cPreMakeB argsMakeB) = true ∧
    Pubkey.raw 1 ≠ Pubkey.raw 2 ∧
    lookupA cPostMake.escrows argsMake.escrowAddr =
      lookupA cPostMakeB.escrows argsMakeB.escrowAddr :=
  ⟨rfl, rfl, by decide, rfl⟩

/-- Take on `raw 1`'s escrow, but naming `raw 3` as the maker account. -/
def argsTakeWrongMaker : TakeArgs :=
  { taker := Pubkey.raw 2
    maker := Pubkey.raw 3
    mintA := Pubkey.raw 10
    mintB := Pubkey.raw 11
    takerAtaA := Pubkey.ata (Pubkey.raw 2) (Pubkey.raw 10)
    takerAtaB := Pubkey.ata (Pubkey.raw 2) (Pubkey.raw 11)
    makerAtaB := Pubkey.ata (Pubkey.raw 3) (Pubkey.raw 11)
    escrowAddr := Pubkey.escrowPda (Pubkey.raw 1) 5
    vaultAddr := Pubkey.ata (Pubkey.escrowPda (Pubkey.raw 1) 5) (Pubkey.raw 10) }

/-- C10: in Take the maker does not sign (take.rs lines 13-15 declare
it a plain SystemAccount); the `seeds` check on the record forces the
supplied maker to be exactly the identity from which the record's
address was derived at Make time (unique, by injectivity of the
derivation), and the counter-payment goes to that maker's associated
mint-B account — so a taker cannot redirect it to another principal,
and a Take naming any other maker fails. -/
theorem C10_take_maker_pinned_by_seeds :
    (∀ c a c' t, take c a = .ok (c', t) →
       ∃ e decB, lookupA c.escrows a.escrowAddr = some e ∧
         a.escrowAddr = Pubkey.escrowPda a.maker e.seed ∧
         (∀ m s, a.escrowAddr = Pubkey.escrowPda m s → m = a.maker ∧ s = e.seed) ∧
         t.head? = some (TokenOp.transferChecked a.takerAtaB a.mintB
           (Pubkey.ata a.maker a.mintB) a.taker e.receive decB)) ∧
    (∀ c a (e : Escrow) (m0 : Pubkey) (s0 : Nat),
       lookupA c.escrows a.escrowAddr = some e →
       a.escrowAddr = Pubkey.escrowPda m0 s0 → a.maker ≠ m0 →
       succeeded (take c a) = false) := by
  constructor
  · intro c a c' t h
    obtain ⟨decA, decB, e, v, cmid, crun, hdecA, hdecB, htaA, htaB, hmaB, he, hseeds,
      hbump, hema, hemb, hvaddr, hv, hvm, hvo, hpres, hescmid, hmintmid, ht, hrun,
      hc'⟩ := take_ok_inv h
    refine ⟨e, decB, he, hseeds, ?_, ?_⟩
    · intro m s hm
      rw [hseeds] at hm
      have hinj := (Pubkey.escrowPda.injEq _ _ _ _).mp hm
      exact ⟨hinj.1.symm, hinj.2.symm⟩
    · rw [ht, hmaB]
      rfl
  · intro c a e m0 s0 he horig hwrong
    cases hr : take c a with
    | error err => rfl
    | ok r =>
      obtain ⟨e2, he2, hseeds2⟩ := take_maker_from_seeds hr
      rw [horig] at hseeds2
      exact absurd ((Pubkey.escrowPda.injEq _ _ _ _).mp hseeds2).1.symm hwrong

/-- C10 witness: the concrete take binds maker `raw 1`; the same take
naming `raw 3` as maker fails. -/
theorem C10_witness :
    (∃ e decB, lookupA cPreTake.escrows argsTake.escrowAddr = some e ∧
       argsTake.escrowAddr = Pubkey.escrowPda argsTake.maker e.seed ∧
       (∀ m s, argsTake.escrowAddr = Pubkey.escrowPda m s →
          m = argsTake.maker ∧ s = e.seed) ∧
       takeRes.2.head? = some (TokenOp.transferChecked argsTake.takerAtaB argsTake.mintB
         (Pubkey.ata argsTake.maker argsTake.mintB) argsTake.taker e.receive decB)) ∧
    succeeded (take cPreTake argsTakeWrongMaker) = false :=
  ⟨C10_take_maker_pinned_by_seeds.1 cPreTake argsTake takeRes.1 takeRes.2 rfl,
   C10_take_maker_pinned_by_seeds.2 cPreTake argsTakeWrongMaker
     ⟨5, Pubkey.raw 10, Pubkey.raw 11, 50, 255⟩ (Pubkey.raw 1) 5 rfl rfl (by decide)⟩

end AnchorEscrow
